import Mathlib

/-!
Verification of the OctoBot order-lifecycle core.

Shallow embedding of `trading/trader/trader.py` (the order lifecycle
coordinator) and `core/channels/exchange/orders.py` (the order-update
broadcast producer/consumer), together with proofs of the specified
properties.

Mutable Python objects are modelled by explicit state passing: all orders
live in a map `orders : Nat → Option Order` keyed by order id, the
open-order list holds order ids, and calls into the external collaborators
(portfolio ledger, trades manager, notifier) are recorded as events
appended to logs inside the state.
-/

namespace OctoBot

/-- Order status enumeration (`config.cst.OrderStatus`; only the
canceled/open/filled distinction is observable in the embedded code). -/
inductive OrderStatus where
  | OPEN
  | CANCELED
  | FILLED
deriving DecidableEq

/-- An order object.  `linkedOrders` holds the ids of the linked orders
(`Order.linked_orders` in the source); `notifierId` identifies the shared
`OrderNotifier` instance attached by `create_order`. -/
structure Order where
  oid : Nat
  kind : String
  symbol : String
  currentPrice : Int
  quantity : Int
  price : Option Int
  stopPrice : Option Int
  status : OrderStatus
  linkedOrders : List Nat
  notifierId : Nat
  profitability : Int
deriving DecidableEq

/-- Modelled from the spec: `Order.cancel_order` (the low-level cancel
transition in `trading/trader/order.py`, not part of the sources) marks the
order canceled; it touches nothing else. -/
def Order.cancelTransition (o : Order) : Order :=
  { o with status := OrderStatus.CANCELED }

/-- A call into the portfolio availability ledger (an external collaborator;
only which call is made matters, so calls are recorded as events). -/
inductive PortfolioCall where
  | updateAvailableNew (oid : Nat)
  | updateAvailableEnd (oid : Nat)
  | updatePortfolio (oid : Nat)
  | resetAvailable
deriving DecidableEq

/-- The payload of `OrderNotifier.end`, the terminal notification. -/
structure Notification where
  orderClosed : Option Nat
  ordersCanceled : List Nat
  orderProfitability : Int
  profitabilityPercent : Int
  profitabilityDiff : Int
  activated : Bool
deriving DecidableEq

/-- A trade-history record built by `Trade(self.exchange, order)`. -/
structure Trade where
  exchange : String
  oid : Nat
deriving DecidableEq

/-- The state of one `Trader` instance together with its collaborators.
`profitabilityFresh` is the triple `get_profitability()` would return and
`profitabilityNoUpdate` the triple from `get_profitability_without_update()`
(trades-manager internals are external to this core, so the two results are
part of the state). -/
structure TraderState where
  exchange : String
  orders : Nat → Option Order
  openOrders : List Nat
  portfolioCalls : List PortfolioCall
  tradesHistory : List Trade
  notifications : List (Nat × Notification)
  profitabilityFresh : Int × Int × Int
  profitabilityNoUpdate : Int × Int × Int
  risk : ℚ

/-- Embeds `Trader.set_risk`: clamp the value to the configured risk range and
store it (`trader.py` lines 46-52).  The range bounds are the constants
`CONFIG_TRADER_RISK_MIN` / `CONFIG_TRADER_RISK_MAX` from `config.cst`,
passed here as parameters. -/
def set_risk (riskMin riskMax : ℚ) (s : TraderState) (risk : ℚ) : TraderState :=
  if risk < riskMin then { s with risk := riskMin }
  else if risk > riskMax then { s with risk := riskMax }
  else { s with risk := risk }

/-- Modelled from the spec: `OrdersManager.add_order_to_list` (not in the
sources) registers the order into the open-order set. -/
def addOrderToList (s : TraderState) (oid : Nat) : TraderState :=
  { s with openOrders := s.openOrders ++ [oid] }

/-- Modelled from the spec: `OrdersManager.remove_order_from_list` (not in
the sources) removes the order from the open-order set. -/
def removeOrderFromList (s : TraderState) (oid : Nat) : TraderState :=
  { s with openOrders := s.openOrders.erase oid }

/-- Embeds `Trader.cancel_order` (`trader.py` lines 92-95): under the order's own
lock run its low-level cancel transition, then remove it from the
open-order list.  The portfolio ledger is not touched. -/
def cancel_order (s : TraderState) (oid : Nat) : TraderState :=
  { s with
      orders := fun i => if i = oid then (s.orders i).map Order.cancelTransition else s.orders i,
      openOrders := s.openOrders.erase oid }

/-- Embeds `Trader.create_order` (`trader.py` lines 60-90).  `newOid` is the
identity of the freshly constructed order object and `newNotifierId` the
identity of the `OrderNotifier` that would be freshly constructed; when
`linkedTo` is present the new order instead reuses the linked order's
notifier, and the symmetric link is recorded on both orders.  Returns the
updated state and the created order's id. -/
def create_order (s : TraderState) (kind symbol : String) (currentPrice quantity : Int)
    (price stopPrice : Option Int) (linkedTo : Option Nat) (newOid newNotifierId : Nat) :
    TraderState × Nat :=
  let notifierId :=
    match linkedTo with
    | none => newNotifierId
    | some ltid => ((s.orders ltid).map Order.notifierId).getD newNotifierId
  let order : Order :=
    { oid := newOid, kind := kind, symbol := symbol, currentPrice := currentPrice,
      quantity := quantity, price := price, stopPrice := stopPrice,
      status := OrderStatus.OPEN, linkedOrders := [], notifierId := notifierId,
      profitability := 0 }
  let s1 : TraderState :=
    { s with orders := fun i => if i = newOid then some order else s.orders i }
  let s2 : TraderState :=
    { s1 with portfolioCalls := s1.portfolioCalls ++ [PortfolioCall.updateAvailableNew newOid] }
  let s3 := addOrderToList s2 newOid
  let s4 : TraderState :=
    match linkedTo with
    | none => s3
    | some ltid =>
      let s3a :=
        { s3 with orders := fun i =>
            if i = ltid then (s3.orders i).map (fun lo : Order => { lo with linkedOrders := lo.linkedOrders ++ [newOid] })
            else s3.orders i }
      { s3a with orders := fun i =>
          if i = newOid then (s3a.orders i).map (fun o : Order => { o with linkedOrders := o.linkedOrders ++ [ltid] })
          else s3a.orders i }
  (s4, newOid)

/-- Embeds `Trader.notify_order_cancel` (`trader.py` lines 104-107): release the
order's availability reservation. -/
def notify_order_cancel (s : TraderState) (oid : Nat) : TraderState :=
  { s with portfolioCalls := s.portfolioCalls ++ [PortfolioCall.updateAvailableEnd oid] }

/-- The final notification step of `notify_order_close` (`trader.py` lines
148-159): compute `profitability_activated` from `order_closed` and fire
the order's notifier's `end` exactly once. -/
def endNotify (s : TraderState) (oid : Nat) (orderClosed : Option Nat)
    (ordersCanceled : List Nat) (pp pd : Int) : TraderState :=
  match s.orders oid with
  | none => s
  | some o =>
    let activated := orderClosed.isSome
    { s with notifications := s.notifications ++
        [(o.notifierId,
          { orderClosed := orderClosed, ordersCanceled := ordersCanceled,
            orderProfitability := o.profitability, profitabilityPercent := pp,
            profitabilityDiff := pd, activated := activated })] }

/-- Embeds `Trader.notify_order_close` (`trader.py` lines 109-159): cascade-cancel
the linked orders, then either force-cancel the order itself (full ledger
availability reset) or apply the fill (incremental ledger update, trade
history append, removal from the open list), and finally fire the terminal
notification. -/
def notify_order_close (s : TraderState) (oid : Nat) (cancel : Bool) : TraderState :=
  match s.orders oid with
  | none => s
  | some order =>
    let s1 := order.linkedOrders.foldl cancel_order s
    if cancel then
      let orderClosed : Option Nat := none
      let ordersCanceled := order.linkedOrders ++ [oid]
      let s2 := cancel_order s1 oid
      let pp := s2.profitabilityNoUpdate.2.1
      let pd := s2.profitabilityNoUpdate.2.2
      let s3 := { s2 with portfolioCalls := s2.portfolioCalls ++ [PortfolioCall.resetAvailable] }
      endNotify s3 oid orderClosed ordersCanceled pp pd
    else
      let orderClosed : Option Nat := some oid
      let ordersCanceled := order.linkedOrders
      let s2 := { s1 with portfolioCalls := s1.portfolioCalls ++ [PortfolioCall.updatePortfolio oid] }
      let pp := s2.profitabilityFresh.2.1
      let pd := s2.profitabilityFresh.2.2
      let s3 := { s2 with tradesHistory := s2.tradesHistory ++ [⟨s2.exchange, oid⟩] }
      let s4 := removeOrderFromList s3 oid
      endNotify s4 oid orderClosed ordersCanceled pp pd

/-- Embeds `Trader.cancel_open_orders` (`trader.py` lines 98-102): iterate over a
copy of the open-order list and force-close every order whose symbol
matches and whose status is not canceled.  The snapshot is the list of ids
taken up front; the symbol/status checks read the order's current state, as
the Python loop reads the live objects. -/
def cancel_open_orders (s : TraderState) (symbol : String) : TraderState :=
  s.openOrders.foldl
    (fun st oid =>
      match st.orders oid with
      | none => st
      | some o =>
        if o.symbol = symbol ∧ o.status ≠ OrderStatus.CANCELED then
          notify_order_close st oid true
        else st)
    s

/-! Embedding of the order-update broadcast channel (`core/channels/exchange/orders.py`) -/

/-- The wildcard subscription key `CONFIG_WILDCARD`. -/
def CONFIG_WILDCARD : String := "*"

/-- An exchange order update flowing through the channel; `id` is the key
used by the authoritative order-state store. -/
structure XOrder where
  id : Nat
  info : String
deriving DecidableEq

/-- An exception that can be raised while `perform` broadcasts: a
cancellation signal (`asyncio.CancelledError`) or any other exception,
carrying its message. -/
inductive PerformErr where
  | cancelled
  | failure (msg : String)
deriving DecidableEq

/-- One logger call made by the producer. -/
inductive LogEntry where
  | info (msg : String)
  | err (msg : String)
  | exc (msg : String)
deriving DecidableEq

/-- State of one `OrdersChannel` together with its exchange manager's
personal data: `consumers` is the channel's key → consumer-ids registry (a
dict, so keys are unique), `ordersStore` the authoritative order-state
store keyed by order id, and `queues` each consumer's private FIFO queue of
`(symbol, order)` messages. -/
structure ChannelState where
  consumers : List (String × List Nat)
  ordersStore : Nat → Option XOrder
  queues : Nat → List (String × XOrder)

/-- Embeds `self.channel.get_consumers(symbol=key)`: the consumers registered
under exactly `key`, in registration order (empty when the key is absent). -/
def consumersFor (s : ChannelState) (key : String) : List Nat :=
  (s.consumers.lookup key).getD []

/-- Embeds the check `key in self.channel.consumers`: dict key membership. -/
def hasKey (s : ChannelState) (key : String) : Bool :=
  (s.consumers.lookup key).isSome

/-- Embeds `get_personal_data().upsert_order(order.id, order)`: insert if absent,
overwrite if present (last writer wins). -/
def upsertOrder (s : ChannelState) (ord : XOrder) : ChannelState :=
  { s with ordersStore := fun i => if i = ord.id then some ord else s.ordersStore i }

/-- Append one message to a consumer's queue (the effect of
`consumer.queue.put`, scheduled cross-context via
`asyncio.run_coroutine_threadsafe`). -/
def enqueue (s : ChannelState) (cid : Nat) (m : String × XOrder) : ChannelState :=
  { s with queues := fun i => if i = cid then s.queues i ++ [m] else s.queues i }

/-- A fault model for the broadcast: `fault cid` is the exception (if any)
raised while handing the update to consumer `cid`. -/
def FaultSpec : Type := Nat → Option PerformErr

/-- Embeds `OrdersProducer.send(symbol, order)` under fault injection: walk the
consumers registered under `key` in order; each delivery either enqueues
the message or raises, in which case the exception propagates together with
the state reached so far (consumers already reached keep the message). -/
def sendList (fault : FaultSpec) (key : String) (ord : XOrder) :
    List Nat → ChannelState → Except (PerformErr × ChannelState) ChannelState
  | [], s => Except.ok s
  | c :: rest, s =>
    match fault c with
    | some e => Except.error (e, s)
    | none => sendList fault key ord rest (enqueue s c (key, ord))

/-- The body of `OrdersProducer.perform` (`orders.py` lines 31-34), before
the surrounding `try`: if some consumer is registered under the wildcard
key or under `symbol`, upsert the order into the store, then send to the
`symbol` consumers and to the wildcard consumers. -/
def performBody (fault : FaultSpec) (sym : String) (ord : XOrder) (s : ChannelState) :
    Except (PerformErr × ChannelState) ChannelState :=
  if hasKey s CONFIG_WILDCARD ∨ hasKey s sym then
    Except.bind
      (sendList fault sym ord (consumersFor (upsertOrder s ord) sym) (upsertOrder s ord))
      (fun s2 => sendList fault CONFIG_WILDCARD ord (consumersFor s2 CONFIG_WILDCARD) s2)
  else Except.ok s

/-- Embeds `OrdersProducer.perform` (`orders.py` lines 29-39): run the body under
`try`; a `CancelledError` is logged as informational and swallowed, any
other exception is logged with full detail and swallowed.  The result is
the final channel state plus the producer's log; no exception reaches the
caller. -/
def perform (fault : FaultSpec) (sym : String) (ord : XOrder) (s : ChannelState) :
    ChannelState × List LogEntry :=
  match performBody fault sym ord s with
  | Except.ok s' => (s', [])
  | Except.error (PerformErr.cancelled, s') => (s', [LogEntry.info "Update tasks cancelled."])
  | Except.error (PerformErr.failure m, s') =>
    (s', [LogEntry.err ("exception when triggering update: " ++ m), LogEntry.exc m])

/-- Embeds `OrdersProducer.push(symbol, order)` (`orders.py` lines 26-27): the
sole external entry point; it just awaits `perform`. -/
def push (fault : FaultSpec) (sym : String) (ord : XOrder) (s : ChannelState) :
    ChannelState × List LogEntry :=
  perform fault sym ord s

/-- The full delivery sequence one `perform` call attempts: the consumers
under `symbol`, then the consumers under the wildcard key. -/
def deliverySeq (s : ChannelState) (sym : String) : List Nat :=
  consumersFor s sym ++ consumersFor s CONFIG_WILDCARD

/-! Embedding of the consumer dispatch loop (`OrdersConsumer.consume`). -/

/-- Where the dispatch loop stands: still at the `while` check, suspended
inside `queue.get()` on an empty queue, or exited. -/
inductive LoopStatus where
  | running
  | blocked
  | exited
deriving DecidableEq

/-- Observable state of one `OrdersConsumer`'s dispatch loop: its pending
queue, the messages already handed to the callback, the exception log, and
the loop status. -/
structure ConsumerState where
  queue : List (String × XOrder)
  handled : List (String × XOrder)
  log : List String
  status : LoopStatus
deriving DecidableEq

/-- One iteration of `OrdersConsumer.consume` (`orders.py` lines 50-56).
`stop` is the value of `self.should_stop` observed at the `while` poll
point; `cbRaises` tells whether this invocation of the callback raises.  If
the stop flag is set the loop exits; otherwise the loop takes the next
queued item (suspending when the queue is empty) and invokes the callback,
logging and swallowing any exception it raises. -/
def consumeStep (cs : ConsumerState) (input : Bool × Bool) : ConsumerState :=
  if cs.status ≠ LoopStatus.running then cs
  else if input.1 then { cs with status := LoopStatus.exited }
  else
    match cs.queue with
    | [] => { cs with status := LoopStatus.blocked }
    | m :: rest =>
      { cs with
          queue := rest
          handled := cs.handled ++ [m]
          log := if input.2 then cs.log ++ ["Exception when calling callback"] else cs.log }

/-- The dispatch loop run over a finite trace of per-iteration inputs
`(should_stop observed, callback raises)`. -/
def consumeRun (inputs : List (Bool × Bool)) (cs : ConsumerState) : ConsumerState :=
  inputs.foldl consumeStep cs

/-! Basic lemmas about the lifecycle operations. -/

theorem Order.cancelTransition_idem (o : Order) :
    o.cancelTransition.cancelTransition = o.cancelTransition := rfl

theorem Option.map_cancelTransition_idem (x : Option Order) :
    (x.map Order.cancelTransition).map Order.cancelTransition = x.map Order.cancelTransition := by
  cases x <;> rfl

theorem Option.map_cancelTransition_comp (x : Option Order) :
    x.map (Order.cancelTransition ∘ Order.cancelTransition) = x.map Order.cancelTransition := by
  cases x <;> rfl

@[simp] theorem cancel_order_openOrders (s : TraderState) (oid : Nat) :
    (cancel_order s oid).openOrders = s.openOrders.erase oid := rfl

@[simp] theorem cancel_order_orders (s : TraderState) (oid i : Nat) :
    (cancel_order s oid).orders i =
      if i = oid then (s.orders i).map Order.cancelTransition else s.orders i := rfl

@[simp] theorem cancel_order_portfolioCalls (s : TraderState) (oid : Nat) :
    (cancel_order s oid).portfolioCalls = s.portfolioCalls := rfl

@[simp] theorem cancel_order_tradesHistory (s : TraderState) (oid : Nat) :
    (cancel_order s oid).tradesHistory = s.tradesHistory := rfl

@[simp] theorem cancel_order_notifications (s : TraderState) (oid : Nat) :
    (cancel_order s oid).notifications = s.notifications := rfl

@[simp] theorem cancel_order_profitabilityFresh (s : TraderState) (oid : Nat) :
    (cancel_order s oid).profitabilityFresh = s.profitabilityFresh := rfl

@[simp] theorem cancel_order_profitabilityNoUpdate (s : TraderState) (oid : Nat) :
    (cancel_order s oid).profitabilityNoUpdate = s.profitabilityNoUpdate := rfl

@[simp] theorem cancel_order_exchange (s : TraderState) (oid : Nat) :
    (cancel_order s oid).exchange = s.exchange := rfl

/-- The cascade loop `for linked_order in order.get_linked_orders():
self.cancel_order(linked_order)` only erases ids from the open list. -/
theorem foldl_cancel_openOrders (lids : List Nat) (s : TraderState) :
    (lids.foldl cancel_order s).openOrders = lids.foldl List.erase s.openOrders := by
  induction lids generalizing s with
  | nil => rfl
  | cons a rest ih => simpa using ih (cancel_order s a)

/-- Effect of the cascade loop on the order map: exactly the listed ids get
the cancel transition. -/
theorem foldl_cancel_orders (lids : List Nat) (s : TraderState) (i : Nat) :
    (lids.foldl cancel_order s).orders i =
      if i ∈ lids then (s.orders i).map Order.cancelTransition else s.orders i := by
  induction lids generalizing s with
  | nil => simp
  | cons a rest ih =>
    simp only [List.foldl_cons, ih (cancel_order s a), cancel_order_orders, List.mem_cons]
    by_cases hir : i ∈ rest <;> by_cases hia : i = a <;>
      simp [hir, hia, Option.map_cancelTransition_idem, Option.map_cancelTransition_comp]

theorem foldl_cancel_portfolioCalls (lids : List Nat) (s : TraderState) :
    (lids.foldl cancel_order s).portfolioCalls = s.portfolioCalls := by
  induction lids generalizing s with
  | nil => rfl
  | cons a rest ih => simpa using ih (cancel_order s a)

theorem foldl_cancel_tradesHistory (lids : List Nat) (s : TraderState) :
    (lids.foldl cancel_order s).tradesHistory = s.tradesHistory := by
  induction lids generalizing s with
  | nil => rfl
  | cons a rest ih => simpa using ih (cancel_order s a)

theorem foldl_cancel_notifications (lids : List Nat) (s : TraderState) :
    (lids.foldl cancel_order s).notifications = s.notifications := by
  induction lids generalizing s with
  | nil => rfl
  | cons a rest ih => simpa using ih (cancel_order s a)

theorem foldl_cancel_profitabilityFresh (lids : List Nat) (s : TraderState) :
    (lids.foldl cancel_order s).profitabilityFresh = s.profitabilityFresh := by
  induction lids generalizing s with
  | nil => rfl
  | cons a rest ih => simpa using ih (cancel_order s a)

theorem foldl_cancel_profitabilityNoUpdate (lids : List Nat) (s : TraderState) :
    (lids.foldl cancel_order s).profitabilityNoUpdate = s.profitabilityNoUpdate := by
  induction lids generalizing s with
  | nil => rfl
  | cons a rest ih => simpa using ih (cancel_order s a)

theorem foldl_cancel_exchange (lids : List Nat) (s : TraderState) :
    (lids.foldl cancel_order s).exchange = s.exchange := by
  induction lids generalizing s with
  | nil => rfl
  | cons a rest ih => simpa using ih (cancel_order s a)

/-- Erasing a list of ids from a duplicate-free list keeps it
duplicate-free and removes exactly the listed ids. -/
theorem mem_foldl_erase (lids : List Nat) (l : List Nat) (hl : l.Nodup) :
    (lids.foldl List.erase l).Nodup ∧
      ∀ x, x ∈ lids.foldl List.erase l ↔ x ∈ l ∧ x ∉ lids := by
  induction lids generalizing l with
  | nil => simpa using hl
  | cons a rest ih =>
    obtain ⟨hnd, hmem⟩ := ih (l.erase a) (hl.erase a)
    refine ⟨hnd, fun x => ?_⟩
    rw [List.foldl_cons] at *
    rw [hmem x, hl.mem_erase_iff]
    simp only [List.mem_cons]
    tauto

@[simp] theorem endNotify_orders (s : TraderState) (oid : Nat) (oc : Option Nat)
    (canc : List Nat) (pp pd : Int) :
    (endNotify s oid oc canc pp pd).orders = s.orders := by
  unfold endNotify
  cases s.orders oid <;> rfl

@[simp] theorem endNotify_openOrders (s : TraderState) (oid : Nat) (oc : Option Nat)
    (canc : List Nat) (pp pd : Int) :
    (endNotify s oid oc canc pp pd).openOrders = s.openOrders := by
  unfold endNotify
  cases s.orders oid <;> rfl

@[simp] theorem endNotify_portfolioCalls (s : TraderState) (oid : Nat) (oc : Option Nat)
    (canc : List Nat) (pp pd : Int) :
    (endNotify s oid oc canc pp pd).portfolioCalls = s.portfolioCalls := by
  unfold endNotify
  cases s.orders oid <;> rfl

@[simp] theorem endNotify_tradesHistory (s : TraderState) (oid : Nat) (oc : Option Nat)
    (canc : List Nat) (pp pd : Int) :
    (endNotify s oid oc canc pp pd).tradesHistory = s.tradesHistory := by
  unfold endNotify
  cases s.orders oid <;> rfl

/-- The notification actually appended when the order exists. -/
theorem endNotify_notifications (s : TraderState) (oid : Nat) (o : Order)
    (ho : s.orders oid = some o) (oc : Option Nat) (canc : List Nat) (pp pd : Int) :
    (endNotify s oid oc canc pp pd).notifications = s.notifications ++
      [(o.notifierId,
        { orderClosed := oc, ordersCanceled := canc, orderProfitability := o.profitability,
          profitabilityPercent := pp, profitabilityDiff := pd, activated := oc.isSome })] := by
  unfold endNotify
  rw [ho]

/-! Characterization of the two paths of `notify_order_close`. -/

/-- The order map entry of `oid` after the cascade loop keeps notifier,
profitability and linked list. -/
theorem orders_after_cascade (s : TraderState) (oid : Nat) (o : Order) (lids : List Nat)
    (ho : s.orders oid = some o) :
    ∃ o', (lids.foldl cancel_order s).orders oid = some o' ∧
      o'.notifierId = o.notifierId ∧ o'.profitability = o.profitability ∧
      o'.linkedOrders = o.linkedOrders := by
  rw [foldl_cancel_orders, ho]
  by_cases h : oid ∈ lids
  · exact ⟨o.cancelTransition, by simp [h], rfl, rfl, rfl⟩
  · exact ⟨o, by simp [h], rfl, rfl, rfl⟩

/-- Definitional shape of the forced-cancel branch of
`notify_order_close` once the order lookup is known. -/
theorem notify_close_true_eq (s : TraderState) (oid : Nat) (o : Order)
    (ho : s.orders oid = some o) :
    notify_order_close s oid true =
      endNotify
        { cancel_order (o.linkedOrders.foldl cancel_order s) oid with
            portfolioCalls :=
              (o.linkedOrders.foldl cancel_order s).portfolioCalls ++
                [PortfolioCall.resetAvailable] }
        oid none (o.linkedOrders ++ [oid])
        (o.linkedOrders.foldl cancel_order s).profitabilityNoUpdate.2.1
        (o.linkedOrders.foldl cancel_order s).profitabilityNoUpdate.2.2 := by
  unfold notify_order_close
  rw [ho]
  exact rfl

/-- Definitional shape of the fill branch of `notify_order_close` once the
order lookup is known. -/
theorem notify_close_false_eq (s : TraderState) (oid : Nat) (o : Order)
    (ho : s.orders oid = some o) :
    notify_order_close s oid false =
      endNotify
        (removeOrderFromList
          { o.linkedOrders.foldl cancel_order s with
              portfolioCalls :=
                (o.linkedOrders.foldl cancel_order s).portfolioCalls ++
                  [PortfolioCall.updatePortfolio oid]
              tradesHistory :=
                (o.linkedOrders.foldl cancel_order s).tradesHistory ++
                  [{ exchange := (o.linkedOrders.foldl cancel_order s).exchange, oid := oid }] }
          oid)
        oid (some oid) o.linkedOrders
        (o.linkedOrders.foldl cancel_order s).profitabilityFresh.2.1
        (o.linkedOrders.foldl cancel_order s).profitabilityFresh.2.2 := by
  unfold notify_order_close
  rw [ho]
  exact rfl

/-- Forced-cancel path of `notify_order_close`, the order map. -/
theorem notify_close_cancel_orders (s : TraderState) (oid : Nat) (o : Order)
    (ho : s.orders oid = some o) (x : Nat) (hx : x ∈ o.linkedOrders ∨ x = oid) :
    (notify_order_close s oid true).orders x = (s.orders x).map Order.cancelTransition := by
  rw [notify_close_true_eq s oid o ho]
  simp only [endNotify_orders, cancel_order_orders, foldl_cancel_orders]
  by_cases hxo : x = oid
  · subst hxo
    by_cases hm : x ∈ o.linkedOrders <;>
      simp [hm, Option.map_cancelTransition_idem, Option.map_cancelTransition_comp]
  · have hx' : x ∈ o.linkedOrders := hx.resolve_right hxo
    simp [hxo, hx']

/-- Forced-cancel path of `notify_order_close`, the open-order list. -/
theorem notify_close_cancel_openOrders (s : TraderState) (oid : Nat) (o : Order)
    (ho : s.orders oid = some o) :
    (notify_order_close s oid true).openOrders =
      (o.linkedOrders.foldl List.erase s.openOrders).erase oid := by
  rw [notify_close_true_eq s oid o ho]
  simp [foldl_cancel_openOrders]

/-- Forced-cancel path of `notify_order_close`, the ledger calls: the
cascade and the self-cancel add nothing, then one full availability reset. -/
theorem notify_close_cancel_portfolioCalls (s : TraderState) (oid : Nat) (o : Order)
    (ho : s.orders oid = some o) :
    (notify_order_close s oid true).portfolioCalls =
      s.portfolioCalls ++ [PortfolioCall.resetAvailable] := by
  rw [notify_close_true_eq s oid o ho]
  simp [foldl_cancel_portfolioCalls]

/-- Forced-cancel path of `notify_order_close`, the trade history: untouched. -/
theorem notify_close_cancel_tradesHistory (s : TraderState) (oid : Nat) (o : Order)
    (ho : s.orders oid = some o) :
    (notify_order_close s oid true).tradesHistory = s.tradesHistory := by
  rw [notify_close_true_eq s oid o ho]
  simp [foldl_cancel_tradesHistory]

/-- Forced-cancel path of `notify_order_close`, the notification fired:
closed order none, canceled set the linked orders plus the order, aggregate
figures from `get_profitability_without_update`, activation flag false. -/
theorem notify_close_cancel_notifications (s : TraderState) (oid : Nat) (o : Order)
    (ho : s.orders oid = some o) :
    (notify_order_close s oid true).notifications = s.notifications ++
      [(o.notifierId,
        { orderClosed := none, ordersCanceled := o.linkedOrders ++ [oid],
          orderProfitability := o.profitability,
          profitabilityPercent := s.profitabilityNoUpdate.2.1,
          profitabilityDiff := s.profitabilityNoUpdate.2.2, activated := false })] := by
  rw [notify_close_true_eq s oid o ho]
  obtain ⟨o', ho', hnid, hprof, _⟩ := orders_after_cascade s oid o o.linkedOrders ho
  have ho'' :
      ({ cancel_order (o.linkedOrders.foldl cancel_order s) oid with
          portfolioCalls :=
            (o.linkedOrders.foldl cancel_order s).portfolioCalls ++
              [PortfolioCall.resetAvailable] } : TraderState).orders oid =
        some o'.cancelTransition := by
    simp [ho']
  rw [endNotify_notifications _ _ o'.cancelTransition ho'' none (o.linkedOrders ++ [oid])]
  have h1 : o'.cancelTransition.notifierId = o.notifierId := hnid
  have h2 : o'.cancelTransition.profitability = o.profitability := hprof
  simp [h1, h2, foldl_cancel_notifications, foldl_cancel_profitabilityNoUpdate]

/-- Fill path of `notify_order_close`, the order map: exactly the linked
orders get the cancel transition. -/
theorem notify_close_fill_orders (s : TraderState) (oid : Nat) (o : Order)
    (ho : s.orders oid = some o) (x : Nat) :
    (notify_order_close s oid false).orders x =
      if x ∈ o.linkedOrders then (s.orders x).map Order.cancelTransition else s.orders x := by
  rw [notify_close_false_eq s oid o ho]
  simp only [endNotify_orders, removeOrderFromList]
  rw [foldl_cancel_orders]

/-- Fill path of `notify_order_close`, the open-order list. -/
theorem notify_close_fill_openOrders (s : TraderState) (oid : Nat) (o : Order)
    (ho : s.orders oid = some o) :
    (notify_order_close s oid false).openOrders =
      (o.linkedOrders.foldl List.erase s.openOrders).erase oid := by
  rw [notify_close_false_eq s oid o ho]
  simp [removeOrderFromList, foldl_cancel_openOrders]

/-- Fill path of `notify_order_close`, the ledger calls: one incremental
update for the closed order, no full reset. -/
theorem notify_close_fill_portfolioCalls (s : TraderState) (oid : Nat) (o : Order)
    (ho : s.orders oid = some o) :
    (notify_order_close s oid false).portfolioCalls =
      s.portfolioCalls ++ [PortfolioCall.updatePortfolio oid] := by
  rw [notify_close_false_eq s oid o ho]
  simp [removeOrderFromList, foldl_cancel_portfolioCalls]

/-- Fill path of `notify_order_close`, the trade history: exactly one trade
built from the exchange and the order is appended. -/
theorem notify_close_fill_tradesHistory (s : TraderState) (oid : Nat) (o : Order)
    (ho : s.orders oid = some o) :
    (notify_order_close s oid false).tradesHistory =
      s.tradesHistory ++ [⟨s.exchange, oid⟩] := by
  rw [notify_close_false_eq s oid o ho]
  simp [removeOrderFromList, foldl_cancel_tradesHistory, foldl_cancel_exchange]

/-- Fill path of `notify_order_close`, the notification fired: closed order
the order itself, canceled set the linked orders, aggregate figures from
`get_profitability`, activation flag true. -/
theorem notify_close_fill_notifications (s : TraderState) (oid : Nat) (o : Order)
    (ho : s.orders oid = some o) :
    (notify_order_close s oid false).notifications = s.notifications ++
      [(o.notifierId,
        { orderClosed := some oid, ordersCanceled := o.linkedOrders,
          orderProfitability := o.profitability,
          profitabilityPercent := s.profitabilityFresh.2.1,
          profitabilityDiff := s.profitabilityFresh.2.2, activated := true })] := by
  rw [notify_close_false_eq s oid o ho]
  obtain ⟨o', ho', hnid, hprof, _⟩ := orders_after_cascade s oid o o.linkedOrders ho
  have ho'' :
      (removeOrderFromList
        { o.linkedOrders.foldl cancel_order s with
            portfolioCalls :=
              (o.linkedOrders.foldl cancel_order s).portfolioCalls ++
                [PortfolioCall.updatePortfolio oid]
            tradesHistory :=
              (o.linkedOrders.foldl cancel_order s).tradesHistory ++
                [{ exchange := (o.linkedOrders.foldl cancel_order s).exchange, oid := oid }] }
        oid).orders oid = some o' := by
    simpa [removeOrderFromList] using ho'
  rw [endNotify_notifications _ _ o' ho'' (some oid) o.linkedOrders]
  simp [hnid, hprof, removeOrderFromList, foldl_cancel_notifications,
    foldl_cancel_profitabilityFresh]

/-! Claim theorems about the lifecycle coordinator, with witness fixtures. -/

/-- Fixture: a limit order linked to a stop order, sharing notifier 7. -/
def o1 : Order :=
  { oid := 1, kind := "limit", symbol := "BTC/USD", currentPrice := 100, quantity := 1,
    price := some 101, stopPrice := none, status := OrderStatus.OPEN,
    linkedOrders := [2], notifierId := 7, profitability := 5 }

/-- Fixture: the stop order linked back to `o1`. -/
def o2 : Order :=
  { oid := 2, kind := "stop", symbol := "BTC/USD", currentPrice := 100, quantity := 1,
    price := none, stopPrice := some 90, status := OrderStatus.OPEN,
    linkedOrders := [1], notifierId := 7, profitability := 3 }

/-- Fixture: a trader holding the linked pair `o1`/`o2` open. -/
def sW : TraderState :=
  { exchange := "binance", orders := fun i => if i = 1 then some o1 else if i = 2 then some o2 else none,
    openOrders := [1, 2], portfolioCalls := [], tradesHistory := [], notifications := [],
    profitabilityFresh := (30, 31, 32), profitabilityNoUpdate := (40, 41, 42), risk := 1 }

/-- C1: on `notify_order_close(order, cancel=True)` every linked order and
the order itself are cancelled via `cancel_order` (cancel transition applied
and removed from the open-order set, the ledger untouched by those calls),
`orders_canceled` is recorded as the linked orders plus the order itself,
`order_closed` as none, and the only ledger call is one full availability
reset, with the trade history untouched. -/
theorem notify_order_close_force_cancel_correct (s : TraderState) (oid : Nat) (o : Order)
    (ho : s.orders oid = some o) (hnd : s.openOrders.Nodup) :
    (∀ x, (x ∈ o.linkedOrders ∨ x = oid) →
      (notify_order_close s oid true).orders x = (s.orders x).map Order.cancelTransition ∧
      x ∉ (notify_order_close s oid true).openOrders) ∧
    (notify_order_close s oid true).portfolioCalls =
      s.portfolioCalls ++ [PortfolioCall.resetAvailable] ∧
    (notify_order_close s oid true).tradesHistory = s.tradesHistory ∧
    (notify_order_close s oid true).notifications = s.notifications ++
      [(o.notifierId,
        { orderClosed := none, ordersCanceled := o.linkedOrders ++ [oid],
          orderProfitability := o.profitability,
          profitabilityPercent := s.profitabilityNoUpdate.2.1,
          profitabilityDiff := s.profitabilityNoUpdate.2.2, activated := false })] := by
  obtain ⟨hnd', hmem⟩ := mem_foldl_erase o.linkedOrders s.openOrders hnd
  refine ⟨fun x hx => ⟨notify_close_cancel_orders s oid o ho x hx, ?_⟩,
    notify_close_cancel_portfolioCalls s oid o ho,
    notify_close_cancel_tradesHistory s oid o ho,
    notify_close_cancel_notifications s oid o ho⟩
  rw [notify_close_cancel_openOrders s oid o ho]
  rcases hx with hx | rfl
  · intro hin
    exact ((hmem x).1 (List.mem_of_mem_erase hin)).2 hx
  · intro hin
    exact ((hnd'.mem_erase_iff).1 hin).1 rfl

/-- Witness for C1 on the fixture: forcing `o1` closed cancels `o2` and
`o1`, leaves exactly one full ledger reset and no trade record. -/
theorem notify_order_close_force_cancel_correct_witness :
    sW.orders 1 = some o1 ∧ sW.openOrders.Nodup ∧
    (notify_order_close sW 1 true).portfolioCalls = [PortfolioCall.resetAvailable] ∧
    (notify_order_close sW 1 true).orders 2 = some o2.cancelTransition ∧
    2 ∉ (notify_order_close sW 1 true).openOrders ∧
    1 ∉ (notify_order_close sW 1 true).openOrders := by
  have h := notify_order_close_force_cancel_correct sW 1 o1 rfl (by decide)
  have h2 := h.1 2 (Or.inl (by decide))
  have h1 := h.1 1 (Or.inr rfl)
  refine ⟨rfl, by decide, ?_, ?_, h2.2, h1.2⟩
  · have := h.2.1
    simpa [sW] using this
  · rw [h2.1]
    rfl

/-- C2: on `notify_order_close(order, cancel=False)` (a genuine fill) the
ledger is updated incrementally for that one order only, exactly one trade
record built from the exchange and the order is appended to trade history,
the order and its (already cascade-cancelled) linked orders are gone from
the open-order set, and the notification records the closed order, the
linked orders as the canceled set, and the profitability snapshot from the
fresh-recompute tracker call. -/
theorem notify_order_close_fill_correct (s : TraderState) (oid : Nat) (o : Order)
    (ho : s.orders oid = some o) (hnd : s.openOrders.Nodup) :
    (notify_order_close s oid false).portfolioCalls =
      s.portfolioCalls ++ [PortfolioCall.updatePortfolio oid] ∧
    (notify_order_close s oid false).tradesHistory =
      s.tradesHistory ++ [⟨s.exchange, oid⟩] ∧
    oid ∉ (notify_order_close s oid false).openOrders ∧
    (∀ x, x ∈ o.linkedOrders → x ∉ (notify_order_close s oid false).openOrders) ∧
    ∃ n : Notification,
      (notify_order_close s oid false).notifications = s.notifications ++ [(o.notifierId, n)] ∧
      n.orderClosed = some oid ∧ n.ordersCanceled = o.linkedOrders ∧
      n.profitabilityPercent = s.profitabilityFresh.2.1 ∧
      n.profitabilityDiff = s.profitabilityFresh.2.2 := by
  obtain ⟨hnd', hmem⟩ := mem_foldl_erase o.linkedOrders s.openOrders hnd
  refine ⟨notify_close_fill_portfolioCalls s oid o ho,
    notify_close_fill_tradesHistory s oid o ho, ?_, ?_, ?_⟩
  · rw [notify_close_fill_openOrders s oid o ho]
    intro hin
    exact ((hnd'.mem_erase_iff).1 hin).1 rfl
  · intro x hx hin
    rw [notify_close_fill_openOrders s oid o ho] at hin
    exact ((hmem x).1 (List.mem_of_mem_erase hin)).2 hx
  · exact ⟨_, notify_close_fill_notifications s oid o ho, rfl, rfl, rfl, rfl⟩

/-- Witness for C2 on the fixture: filling `o1` adds one incremental ledger
update, one trade record, and empties the open-order set. -/
theorem notify_order_close_fill_correct_witness :
    sW.orders 1 = some o1 ∧ sW.openOrders.Nodup ∧
    (notify_order_close sW 1 false).portfolioCalls = [PortfolioCall.updatePortfolio 1] ∧
    (notify_order_close sW 1 false).tradesHistory = [⟨"binance", 1⟩] ∧
    1 ∉ (notify_order_close sW 1 false).openOrders ∧
    2 ∉ (notify_order_close sW 1 false).openOrders := by
  have h := notify_order_close_fill_correct sW 1 o1 rfl (by decide)
  refine ⟨rfl, by decide, ?_, ?_, h.2.2.1, h.2.2.2.1 2 (by decide)⟩
  · have := h.1
    simpa [sW] using this
  · have := h.2.1
    simpa [sW] using this

/-- C3: every `notify_order_close` run fires the order's notifier's `end`
exactly once, passing the closed order or none, the full canceled set, the
order's own profitability, the aggregate profitability figures, and an
activation flag that is true exactly when a real fill occurred
(`order_closed` not none). -/
theorem notify_order_close_terminal_notification (s : TraderState) (oid : Nat) (o : Order)
    (cancel : Bool) (ho : s.orders oid = some o) :
    ∃ n : Notification,
      (notify_order_close s oid cancel).notifications = s.notifications ++ [(o.notifierId, n)] ∧
      n.orderClosed = (if cancel then none else some oid) ∧
      n.ordersCanceled = (if cancel then o.linkedOrders ++ [oid] else o.linkedOrders) ∧
      n.orderProfitability = o.profitability ∧
      (n.activated = true ↔ n.orderClosed ≠ none) := by
  cases cancel
  · exact ⟨_, notify_close_fill_notifications s oid o ho, rfl, rfl, rfl, by simp⟩
  · exact ⟨_, notify_close_cancel_notifications s oid o ho, rfl, rfl, rfl, by simp⟩

/-- Witness for C3 on the fixture: exactly one notification is appended on
each path. -/
theorem notify_order_close_terminal_notification_witness :
    sW.orders 1 = some o1 ∧
    (notify_order_close sW 1 true).notifications.length = sW.notifications.length + 1 ∧
    (notify_order_close sW 1 false).notifications.length = sW.notifications.length + 1 := by
  obtain ⟨n, hn, -⟩ := notify_order_close_terminal_notification sW 1 o1 true rfl
  obtain ⟨m, hm, -⟩ := notify_order_close_terminal_notification sW 1 o1 false rfl
  exact ⟨rfl, by rw [hn]; simp, by rw [hm]; simp⟩

/-- C9: `set_risk` clamps every input into the configured range and never
rejects it: inputs below the minimum store the minimum, inputs above the
maximum store the maximum, in-range inputs are stored unchanged, and the
stored risk is always in range. -/
theorem set_risk_clamps (riskMin riskMax : ℚ) (s : TraderState) (v : ℚ)
    (h : riskMin ≤ riskMax) :
    riskMin ≤ (set_risk riskMin riskMax s v).risk ∧
    (set_risk riskMin riskMax s v).risk ≤ riskMax ∧
    (v < riskMin → (set_risk riskMin riskMax s v).risk = riskMin) ∧
    (riskMax < v → (set_risk riskMin riskMax s v).risk = riskMax) ∧
    (riskMin ≤ v → v ≤ riskMax → (set_risk riskMin riskMax s v).risk = v) := by
  have hrisk : (set_risk riskMin riskMax s v).risk =
      if v < riskMin then riskMin else if riskMax < v then riskMax else v := by
    unfold set_risk
    split_ifs with h1 h2 <;> rfl
  rw [hrisk]
  split_ifs with h1 h2 <;>
    refine ⟨by linarith, by linarith, fun hv => by linarith, fun hv => by linarith,
      fun hv1 hv2 => by linarith⟩

/-- Witness for C9: with range [0, 1], the input -5 stores 0, the input
9999 stores 1, and the in-range input 1/2 is stored unchanged. -/
theorem set_risk_clamps_witness :
    (0 : ℚ) ≤ 1 ∧
    (set_risk 0 1 sW (-5)).risk = 0 ∧
    (set_risk 0 1 sW 9999).risk = 1 ∧
    (set_risk 0 1 sW (1/2)).risk = 1/2 := by
  refine ⟨by norm_num, ?_, ?_, ?_⟩
  · exact (set_risk_clamps 0 1 sW (-5) (by norm_num)).2.2.1 (by norm_num)
  · exact (set_risk_clamps 0 1 sW 9999 (by norm_num)).2.2.2.1 (by norm_num)
  · exact (set_risk_clamps 0 1 sW (1/2) (by norm_num)).2.2.2.2 (by norm_num) (by norm_num)

/-- C10: the aggregate profitability figures passed to the terminal
notification come from `get_profitability_without_update` on the
forced-cancel path and from `get_profitability` (the fresh-recompute
variant) on the fill path. -/
theorem notify_order_close_profitability_variant (s : TraderState) (oid : Nat) (o : Order)
    (ho : s.orders oid = some o) :
    (∃ n : Notification,
      (notify_order_close s oid true).notifications = s.notifications ++ [(o.notifierId, n)] ∧
      n.profitabilityPercent = s.profitabilityNoUpdate.2.1 ∧
      n.profitabilityDiff = s.profitabilityNoUpdate.2.2) ∧
    (∃ n : Notification,
      (notify_order_close s oid false).notifications = s.notifications ++ [(o.notifierId, n)] ∧
      n.profitabilityPercent = s.profitabilityFresh.2.1 ∧
      n.profitabilityDiff = s.profitabilityFresh.2.2) := by
  exact ⟨⟨_, notify_close_cancel_notifications s oid o ho, rfl, rfl⟩,
    ⟨_, notify_close_fill_notifications s oid o ho, rfl, rfl⟩⟩

/-- Witness for C10 on the fixture: the two paths report the two different
tracker triples (40s versus 30s). -/
theorem notify_order_close_profitability_variant_witness :
    sW.orders 1 = some o1 ∧ sW.profitabilityNoUpdate.2.1 = 41 ∧ sW.profitabilityFresh.2.1 = 31 ∧
    ((notify_order_close sW 1 true).notifications.map (fun p => p.2.profitabilityPercent) = [41]) ∧
    ((notify_order_close sW 1 false).notifications.map (fun p => p.2.profitabilityPercent) = [31]) := by
  obtain ⟨⟨n, hn, hn1, -⟩, ⟨m, hm, hm1, -⟩⟩ :=
    notify_order_close_profitability_variant sW 1 o1 rfl
  refine ⟨rfl, rfl, rfl, ?_, ?_⟩
  · rw [hn]
    simp [sW, hn1]
  · rw [hm]
    simp [sW, hm1]

/-- C7: `create_order` gives an unlinked order a fresh notifier and a
linked order the very same notifier handle as `linkedTo`, establishes the
symmetric link on both orders, registers the new order in the open-order
set, and returns it. -/
theorem create_order_correct (s : TraderState) (kind symbol : String)
    (cp q : Int) (pr sp : Option Int) (ltid newOid newNid : Nat) (lo : Order)
    (hlt : s.orders ltid = some lo) (hfresh : s.orders newOid = none) :
    ((create_order s kind symbol cp q pr sp (some ltid) newOid newNid).2 = newOid ∧
     (∃ no : Order,
        (create_order s kind symbol cp q pr sp (some ltid) newOid newNid).1.orders newOid = some no ∧
        no.notifierId = lo.notifierId ∧ no.linkedOrders = [ltid] ∧ no.status = OrderStatus.OPEN) ∧
     (∃ lo' : Order,
        (create_order s kind symbol cp q pr sp (some ltid) newOid newNid).1.orders ltid = some lo' ∧
        lo'.linkedOrders = lo.linkedOrders ++ [newOid] ∧ lo'.notifierId = lo.notifierId) ∧
     (create_order s kind symbol cp q pr sp (some ltid) newOid newNid).1.openOrders =
       s.openOrders ++ [newOid]) ∧
    ((create_order s kind symbol cp q pr sp none newOid newNid).2 = newOid ∧
     (∃ no : Order,
        (create_order s kind symbol cp q pr sp none newOid newNid).1.orders newOid = some no ∧
        no.notifierId = newNid ∧ no.linkedOrders = [] ∧ no.status = OrderStatus.OPEN) ∧
     (create_order s kind symbol cp q pr sp none newOid newNid).1.openOrders =
       s.openOrders ++ [newOid]) := by
  have hne : ltid ≠ newOid := by
    intro h
    rw [h, hfresh] at hlt
    exact Option.noConfusion hlt
  have hnew : (create_order s kind symbol cp q pr sp (some ltid) newOid newNid).1.orders newOid =
      some { oid := newOid, kind := kind, symbol := symbol, currentPrice := cp, quantity := q,
             price := pr, stopPrice := sp, status := OrderStatus.OPEN, linkedOrders := [ltid],
             notifierId := lo.notifierId, profitability := 0 } := by
    simp [create_order, addOrderToList, hlt, hne, Ne.symm hne]
  have hlinked : (create_order s kind symbol cp q pr sp (some ltid) newOid newNid).1.orders ltid =
      some { lo with linkedOrders := lo.linkedOrders ++ [newOid] } := by
    simp [create_order, addOrderToList, hlt, hne, Ne.symm hne]
  have hopen : (create_order s kind symbol cp q pr sp (some ltid) newOid newNid).1.openOrders =
      s.openOrders ++ [newOid] := by
    simp [create_order, addOrderToList]
  have hnew2 : (create_order s kind symbol cp q pr sp none newOid newNid).1.orders newOid =
      some { oid := newOid, kind := kind, symbol := symbol, currentPrice := cp, quantity := q,
             price := pr, stopPrice := sp, status := OrderStatus.OPEN, linkedOrders := [],
             notifierId := newNid, profitability := 0 } := by
    simp [create_order, addOrderToList]
  have hopen2 : (create_order s kind symbol cp q pr sp none newOid newNid).1.openOrders =
      s.openOrders ++ [newOid] := by
    simp [create_order, addOrderToList]
  exact ⟨⟨rfl, ⟨_, hnew, rfl, rfl, rfl⟩, ⟨_, hlinked, rfl, rfl⟩, hopen⟩,
    rfl, ⟨_, hnew2, rfl, rfl, rfl⟩, hopen2⟩

/-- Witness for C7 on the fixture: a new order 3 linked to `o1` shares
notifier 7, is registered, and is returned. -/
theorem create_order_correct_witness :
    sW.orders 1 = some o1 ∧ sW.orders 3 = none ∧
    (create_order sW "sell_limit" "BTC/USD" 100 1 (some 105) none (some 1) 3 9).2 = 3 ∧
    ((create_order sW "sell_limit" "BTC/USD" 100 1 (some 105) none (some 1) 3 9).1.orders 3).map
      Order.notifierId = some 7 ∧
    (create_order sW "sell_limit" "BTC/USD" 100 1 (some 105) none (some 1) 3 9).1.openOrders =
      [1, 2, 3] := by
  have h := create_order_correct sW "sell_limit" "BTC/USD" 100 1 (some 105) none 1 3 9 o1 rfl rfl
  obtain ⟨no, hno, hnid, -, -⟩ := h.1.2.1
  refine ⟨rfl, rfl, h.1.1, ?_, ?_⟩
  · rw [hno]
    simp [hnid, o1]
  · have := h.1.2.2.2
    simpa [sW] using this

/-! Scenario fixture for C4: orders 1 and 2 are a linked pair on
"BTC/USD" (created through `create_order`, so they share notifier 11),
order 3 is an unlinked "ETH/USD" order. -/

/-- Scenario: the empty trader. -/
def sC0 : TraderState :=
  { exchange := "binance", orders := fun _ => none, openOrders := [], portfolioCalls := [],
    tradesHistory := [], notifications := [], profitabilityFresh := (30, 31, 32),
    profitabilityNoUpdate := (40, 41, 42), risk := 1 }

/-- Scenario: after creating order 1 (limit on BTC/USD). -/
def sC1 : TraderState := (create_order sC0 "limit" "BTC/USD" 100 1 (some 101) none none 1 11).1

/-- Scenario: after creating order 2 (stop on BTC/USD) linked to order 1. -/
def sC2 : TraderState := (create_order sC1 "stop" "BTC/USD" 100 1 none (some 90) (some 1) 2 12).1

/-- Scenario: after creating the unlinked order 3 (limit on ETH/USD). -/
def sC3 : TraderState := (create_order sC2 "limit" "ETH/USD" 10 2 (some 11) none none 3 13).1

/-- Scenario: after `cancel_open_orders("BTC/USD")`. -/
def sC4 : TraderState := cancel_open_orders sC3 "BTC/USD"

/-- C4: `cancel_open_orders` on the symbol of the linked pair cancels order
1, cascades to cancel order 2 (which is then skipped by the status check on
the snapshot iteration), leaves the unrelated order 3 open and untouched,
performs exactly one full ledger recompute (not two), and fires one
terminal notification on the pair's shared notifier. -/
theorem cancel_open_orders_scenario :
    sC3.openOrders = [1, 2, 3] ∧
    sC4.openOrders = [3] ∧
    (sC4.orders 1).map Order.status = some OrderStatus.CANCELED ∧
    (sC4.orders 2).map Order.status = some OrderStatus.CANCELED ∧
    sC4.orders 3 = sC3.orders 3 ∧
    sC4.portfolioCalls = [PortfolioCall.updateAvailableNew 1, PortfolioCall.updateAvailableNew 2,
      PortfolioCall.updateAvailableNew 3, PortfolioCall.resetAvailable] ∧
    sC4.portfolioCalls.count PortfolioCall.resetAvailable = 1 ∧
    sC4.notifications = [(11,
      { orderClosed := none, ordersCanceled := [2, 1], orderProfitability := 0,
        profitabilityPercent := 41, profitabilityDiff := 42, activated := false })] := by
  decide

/-! Lemmas about the broadcast producer. -/

/-- The fault-free broadcast: no delivery raises. -/
def noFault : FaultSpec := fun _ => none

/-- Deliver one message to each consumer of a list in order. -/
def enqueueList (key : String) (ord : XOrder) (cids : List Nat) (s : ChannelState) :
    ChannelState :=
  cids.foldl (fun st c => enqueue st c (key, ord)) s

@[simp] theorem enqueue_consumers (s : ChannelState) (c : Nat) (m : String × XOrder) :
    (enqueue s c m).consumers = s.consumers := rfl

@[simp] theorem enqueue_ordersStore (s : ChannelState) (c : Nat) (m : String × XOrder) :
    (enqueue s c m).ordersStore = s.ordersStore := rfl

@[simp] theorem upsertOrder_consumers (s : ChannelState) (ord : XOrder) :
    (upsertOrder s ord).consumers = s.consumers := rfl

@[simp] theorem upsertOrder_queues (s : ChannelState) (ord : XOrder) :
    (upsertOrder s ord).queues = s.queues := rfl

theorem enqueueList_consumers (key : String) (ord : XOrder) (cids : List Nat)
    (s : ChannelState) : (enqueueList key ord cids s).consumers = s.consumers := by
  induction cids generalizing s with
  | nil => rfl
  | cons a rest ih => simpa [enqueueList] using ih (enqueue s a (key, ord))

theorem enqueueList_ordersStore (key : String) (ord : XOrder) (cids : List Nat)
    (s : ChannelState) : (enqueueList key ord cids s).ordersStore = s.ordersStore := by
  induction cids generalizing s with
  | nil => rfl
  | cons a rest ih => simpa [enqueueList] using ih (enqueue s a (key, ord))

theorem consumersFor_enqueueList (key k : String) (ord : XOrder) (cids : List Nat)
    (s : ChannelState) : consumersFor (enqueueList key ord cids s) k = consumersFor s k := by
  unfold consumersFor
  rw [enqueueList_consumers]

/-- Queue contents after a duplicate-free delivery round: exactly the
listed consumers receive the message, once each. -/
theorem enqueueList_queues (key : String) (ord : XOrder) (cids : List Nat)
    (hnd : cids.Nodup) (s : ChannelState) (c : Nat) :
    (enqueueList key ord cids s).queues c =
      if c ∈ cids then s.queues c ++ [(key, ord)] else s.queues c := by
  induction cids generalizing s with
  | nil => simp [enqueueList]
  | cons a rest ih =>
    have hnr : a ∉ rest := (List.nodup_cons.1 hnd).1
    have h := ih (List.nodup_cons.1 hnd).2 (enqueue s a (key, ord))
    rw [show enqueueList key ord (a :: rest) s =
        enqueueList key ord rest (enqueue s a (key, ord)) from rfl, h]
    by_cases hc : c ∈ rest
    · have hca : c ≠ a := fun hh => hnr (hh ▸ hc)
      simp [hc, hca, enqueue]
    · by_cases hca : c = a
      · subst hca
        simp [hc, enqueue]
      · simp [hc, hca, enqueue]

/-- A delivery list with no faulting consumer succeeds and enqueues to
every consumer. -/
theorem sendList_ok (fault : FaultSpec) (key : String) (ord : XOrder) (cids : List Nat)
    (s : ChannelState) (h : ∀ c ∈ cids, fault c = none) :
    sendList fault key ord cids s = Except.ok (enqueueList key ord cids s) := by
  induction cids generalizing s with
  | nil => rfl
  | cons a rest ih =>
    have ha : fault a = none := h a (List.mem_cons_self a rest)
    rw [show enqueueList key ord (a :: rest) s =
        enqueueList key ord rest (enqueue s a (key, ord)) from rfl]
    unfold sendList
    rw [ha]
    exact ih (enqueue s a (key, ord)) (fun c hc => h c (List.mem_cons_of_mem a hc))

/-- A delivery list whose first faulting consumer is `c` raises `c`'s
exception, with exactly the consumers before `c` already served. -/
theorem sendList_error (fault : FaultSpec) (key : String) (ord : XOrder) (cids : List Nat)
    (s : ChannelState) (c : Nat) (e : PerformErr)
    (hfind : cids.find? (fun x => (fault x).isSome) = some c) (hc : fault c = some e) :
    sendList fault key ord cids s =
      Except.error (e, enqueueList key ord (cids.takeWhile fun x => (fault x).isNone) s) := by
  induction cids generalizing s with
  | nil => exact absurd hfind (by simp)
  | cons a rest ih =>
    cases ha : fault a with
    | some e' =>
      have hca : a = c := by
        rw [List.find?_cons] at hfind
        simp [ha] at hfind
        exact hfind
      subst hca
      rw [hc] at ha
      cases ha
      unfold sendList
      rw [hc]
      have htw : ((a :: rest).takeWhile fun x => (fault x).isNone) = [] := by
        simp [List.takeWhile_cons, hc]
      rw [htw]
      rfl
    | none =>
      have hfind' : rest.find? (fun x => (fault x).isSome) = some c := by
        rw [List.find?_cons] at hfind
        simpa [ha] using hfind
      have htw : ((a :: rest).takeWhile fun x => (fault x).isNone) =
          a :: (rest.takeWhile fun x => (fault x).isNone) := by
        simp [List.takeWhile_cons, ha]
      unfold sendList
      rw [ha, htw]
      rw [show enqueueList key ord (a :: rest.takeWhile fun x => (fault x).isNone) s =
          enqueueList key ord (rest.takeWhile fun x => (fault x).isNone)
            (enqueue s a (key, ord)) from rfl]
      exact ih (enqueue s a (key, ord)) hfind'

/-- Helper: appending past a prefix with a fault keeps the search result. -/
theorem find?_append_some (p : Nat → Bool) (l1 l2 : List Nat) (c : Nat)
    (h : l1.find? p = some c) : (l1 ++ l2).find? p = some c := by
  induction l1 with
  | nil => exact absurd h (by simp)
  | cons a rest ih =>
    rw [List.find?_cons] at h
    rw [List.cons_append, List.find?_cons]
    cases hp : p a with
    | true => simpa [hp] using (by simpa [hp] using h : a = c)
    | false =>
      simp only [hp] at h ⊢
      exact ih h

/-- Helper: a fault-free prefix forwards the search to the suffix. -/
theorem find?_append_none (p : Nat → Bool) (l1 l2 : List Nat)
    (h : l1.find? p = none) : (l1 ++ l2).find? p = l2.find? p := by
  induction l1 with
  | nil => rfl
  | cons a rest ih =>
    rw [List.find?_cons] at h
    cases hp : p a with
    | true => simp [hp] at h
    | false =>
      simp only [hp] at h
      rw [List.cons_append, List.find?_cons]
      simp only [hp]
      exact ih h

/-- Helper: a fault inside the prefix truncates `takeWhile` within it. -/
theorem takeWhile_append_left (fault : FaultSpec) (l1 l2 : List Nat) (c : Nat)
    (h : l1.find? (fun x => (fault x).isSome) = some c) :
    ((l1 ++ l2).takeWhile fun x => (fault x).isNone) =
      l1.takeWhile fun x => (fault x).isNone := by
  induction l1 with
  | nil => exact absurd h (by simp)
  | cons a rest ih =>
    rw [List.find?_cons] at h
    cases ha : fault a with
    | some e => simp [List.takeWhile_cons, ha]
    | none =>
      simp only [ha, Option.isSome_none, Bool.false_eq_true] at h
      rw [List.cons_append]
      simp only [List.takeWhile_cons, ha, Option.isNone_none]
      rw [ih (by simpa [ha] using h)]

/-- Helper: a fault-free prefix passes `takeWhile` through whole. -/
theorem takeWhile_append_join (fault : FaultSpec) (l1 l2 : List Nat)
    (h : ∀ x ∈ l1, fault x = none) :
    ((l1 ++ l2).takeWhile fun x => (fault x).isNone) =
      l1 ++ (l2.takeWhile fun x => (fault x).isNone) := by
  induction l1 with
  | nil => rfl
  | cons a rest ih =>
    have ha : fault a = none := h a (List.mem_cons_self a rest)
    rw [List.cons_append]
    simp [List.takeWhile_cons, ha, ih (fun x hx => h x (List.mem_cons_of_mem a hx))]

/-- Helper: association-list lookup only returns stored pairs. -/
theorem lookup_mem {α β : Type} [DecidableEq α] (l : List (α × β)) (k : α) (v : β)
    (h : l.lookup k = some v) : (k, v) ∈ l := by
  induction l with
  | nil => exact absurd h (by simp)
  | cons a rest ih =>
    obtain ⟨x, y⟩ := a
    rw [List.lookup] at h
    cases hbeq : (k == x) with
    | true =>
      simp only [hbeq] at h
      cases h
      have hkx : k = x := eq_of_beq hbeq
      subst hkx
      exact List.mem_cons_self _ _
    | false =>
      simp only [hbeq] at h
      exact List.mem_cons_of_mem (x, y) (ih h)

/-- Helper: an empty consumer list for a key means the key is absent, for
channel states whose registry never maps a key to an empty list (the only
states registration can build). -/
theorem hasKey_false_of_consumersFor_nil (s : ChannelState) (k : String)
    (hwf : ∀ kl ∈ s.consumers, kl.2 ≠ ([] : List Nat)) (h : consumersFor s k = []) :
    hasKey s k = false := by
  unfold hasKey
  cases hl : s.consumers.lookup k with
  | none => rfl
  | some l =>
    exfalso
    apply hwf (k, l) (lookup_mem _ _ _ hl)
    unfold consumersFor at h
    rw [hl] at h
    simpa using h

/-- Helper: a nonempty consumer list for a key means the key is present. -/
theorem hasKey_true_of_consumersFor_ne_nil (s : ChannelState) (k : String)
    (h : consumersFor s k ≠ []) : hasKey s k = true := by
  unfold hasKey
  cases hl : s.consumers.lookup k with
  | none =>
    exfalso
    apply h
    unfold consumersFor
    rw [hl]
    rfl
  | some l => rfl

/-- With neither the wildcard key nor the symbol key present, `perform`
does nothing: no store write, no fan-out, no log. -/
theorem perform_inactive (fault : FaultSpec) (sym : String) (ord : XOrder) (s : ChannelState)
    (hw : hasKey s CONFIG_WILDCARD = false) (hs : hasKey s sym = false) :
    perform fault sym ord s = (s, []) := by
  unfold perform performBody
  rw [hw, hs]
  rfl

theorem exceptBind_ok {e a b : Type} (x : a) (f : a → Except e b) :
    Except.bind (Except.ok x) f = f x := rfl

theorem exceptBind_error {e a b : Type} (r : e) (f : a → Except e b) :
    Except.bind (Except.error r : Except e a) f = Except.error r := rfl

/-- With some consumer registered and no delivery fault, the body upserts
and then serves the symbol consumers and the wildcard consumers. -/
theorem performBody_ok (fault : FaultSpec) (sym : String) (ord : XOrder) (s : ChannelState)
    (hactive : hasKey s CONFIG_WILDCARD = true ∨ hasKey s sym = true)
    (hnone : ∀ c ∈ deliverySeq s sym, fault c = none) :
    performBody fault sym ord s = Except.ok
      (enqueueList CONFIG_WILDCARD ord (consumersFor s CONFIG_WILDCARD)
        (enqueueList sym ord (consumersFor s sym) (upsertOrder s ord))) := by
  have hupC : ∀ k, consumersFor (upsertOrder s ord) k = consumersFor s k := fun k => rfl
  unfold performBody
  rw [if_pos hactive]
  simp only [hupC]
  rw [sendList_ok fault sym ord (consumersFor s sym) (upsertOrder s ord)
    (fun c hc => hnone c (List.mem_append_left _ hc))]
  rw [exceptBind_ok, consumersFor_enqueueList]
  exact sendList_ok fault CONFIG_WILDCARD ord _ _
    (fun c hc => hnone c (List.mem_append_right _ hc))

/-- With some consumer registered and a first faulting delivery, the body
raises that delivery's exception; the store was written and exactly the
consumers before the fault hold the message. -/
theorem performBody_error (fault : FaultSpec) (sym : String) (ord : XOrder) (s : ChannelState)
    (c : Nat) (e : PerformErr)
    (hactive : hasKey s CONFIG_WILDCARD = true ∨ hasKey s sym = true)
    (hnd : (deliverySeq s sym).Nodup)
    (hfind : (deliverySeq s sym).find? (fun x => (fault x).isSome) = some c)
    (hc : fault c = some e) :
    ∃ S : ChannelState, performBody fault sym ord s = Except.error (e, S) ∧
      S.ordersStore = (upsertOrder s ord).ordersStore ∧
      ∀ x ∈ (deliverySeq s sym).takeWhile fun y => (fault y).isNone,
        ∃ k, S.queues x = s.queues x ++ [(k, ord)] := by
  obtain ⟨hndS, hndW, hdisj⟩ := List.nodup_append.1 hnd
  have hupC : ∀ k, consumersFor (upsertOrder s ord) k = consumersFor s k := fun k => rfl
  unfold performBody
  rw [if_pos hactive]
  simp only [hupC]
  cases h1 : (consumersFor s sym).find? fun x => (fault x).isSome with
  | some c0 =>
    have hcc : c0 = c := by
      have hap := find?_append_some (fun x => (fault x).isSome)
        (consumersFor s sym) (consumersFor s CONFIG_WILDCARD) c0 h1
      rw [deliverySeq, hap] at hfind
      exact Option.some.inj hfind
    subst hcc
    rw [sendList_error fault sym ord (consumersFor s sym) (upsertOrder s ord) c0 e h1 hc,
      exceptBind_error]
    refine ⟨enqueueList sym ord ((consumersFor s sym).takeWhile fun y => (fault y).isNone)
      (upsertOrder s ord), rfl, enqueueList_ordersStore _ _ _ _, ?_⟩
    intro x hx
    rw [deliverySeq, takeWhile_append_left fault _ _ c0 h1] at hx
    have htwnd : ((consumersFor s sym).takeWhile fun y => (fault y).isNone).Nodup :=
      hndS.sublist (List.takeWhile_sublist _)
    refine ⟨sym, ?_⟩
    rw [enqueueList_queues sym ord _ htwnd (upsertOrder s ord) x, if_pos hx]
    rfl
  | none =>
    have hnsym : ∀ x ∈ consumersFor s sym, fault x = none := by
      intro x hx
      have := List.find?_eq_none.1 h1 x hx
      simpa using this
    rw [sendList_ok fault sym ord (consumersFor s sym) (upsertOrder s ord) hnsym,
      exceptBind_ok, consumersFor_enqueueList]
    simp only [hupC]
    have h2 : (consumersFor s CONFIG_WILDCARD).find? (fun x => (fault x).isSome) = some c := by
      have hap := find?_append_none (fun x => (fault x).isSome)
        (consumersFor s sym) (consumersFor s CONFIG_WILDCARD) h1
      rw [deliverySeq, hap] at hfind
      exact hfind
    rw [sendList_error fault CONFIG_WILDCARD ord (consumersFor s CONFIG_WILDCARD) _ c e h2 hc]
    refine ⟨_, rfl, ?_, ?_⟩
    · rw [enqueueList_ordersStore, enqueueList_ordersStore]
    · intro x hx
      rw [deliverySeq, takeWhile_append_join fault _ _ hnsym] at hx
      have htwsub : ((consumersFor s CONFIG_WILDCARD).takeWhile fun y => (fault y).isNone) ⊆
          consumersFor s CONFIG_WILDCARD := (List.takeWhile_sublist _).subset
      have htwnd : ((consumersFor s CONFIG_WILDCARD).takeWhile fun y => (fault y).isNone).Nodup :=
        hndW.sublist (List.takeWhile_sublist _)
      have hq1 := enqueueList_queues sym ord (consumersFor s sym) hndS (upsertOrder s ord) x
      rcases List.mem_append.1 hx with hxs | hxw
      · refine ⟨sym, ?_⟩
        have hxnw : x ∉ (consumersFor s CONFIG_WILDCARD).takeWhile fun y => (fault y).isNone :=
          fun hmem => hdisj hxs (htwsub hmem)
        rw [enqueueList_queues CONFIG_WILDCARD ord _ htwnd _ x, if_neg hxnw, hq1, if_pos hxs]
        rfl
      · refine ⟨CONFIG_WILDCARD, ?_⟩
        have hxns : x ∉ consumersFor s sym := fun hmem => hdisj hmem (htwsub hxw)
        rw [enqueueList_queues CONFIG_WILDCARD ord _ htwnd _ x, if_pos hxw, hq1, if_neg hxns]
        rfl

/-- C5: `perform` does nothing at all when no consumer is registered under
the wildcard key or the symbol; otherwise it upserts the order into the
store keyed by its id (insert or overwrite, other keys untouched) and
delivers the update once to every consumer under the symbol key and once to
every consumer under the wildcard key, touching no other queue. -/
theorem orders_producer_perform_upsert_fanout (sym : String) (ord : XOrder) (s : ChannelState)
    (hwf : ∀ kl ∈ s.consumers, kl.2 ≠ ([] : List Nat))
    (hnd : (deliverySeq s sym).Nodup) :
    ((consumersFor s CONFIG_WILDCARD = [] ∧ consumersFor s sym = []) →
      perform noFault sym ord s = (s, [])) ∧
    ((consumersFor s CONFIG_WILDCARD ≠ [] ∨ consumersFor s sym ≠ []) →
      ((perform noFault sym ord s).1.ordersStore ord.id = some ord ∧
       (∀ i, i ≠ ord.id → (perform noFault sym ord s).1.ordersStore i = s.ordersStore i) ∧
       (∀ c ∈ consumersFor s sym,
          (perform noFault sym ord s).1.queues c = s.queues c ++ [(sym, ord)]) ∧
       (∀ c ∈ consumersFor s CONFIG_WILDCARD,
          (perform noFault sym ord s).1.queues c = s.queues c ++ [(CONFIG_WILDCARD, ord)]) ∧
       (∀ c, c ∉ consumersFor s sym → c ∉ consumersFor s CONFIG_WILDCARD →
          (perform noFault sym ord s).1.queues c = s.queues c))) := by
  obtain ⟨hndS, hndW, hdisj⟩ := List.nodup_append.1 hnd
  constructor
  · rintro ⟨hw0, hs0⟩
    exact perform_inactive noFault sym ord s
      (hasKey_false_of_consumersFor_nil s _ hwf hw0)
      (hasKey_false_of_consumersFor_nil s _ hwf hs0)
  · intro hne
    have hact : hasKey s CONFIG_WILDCARD = true ∨ hasKey s sym = true := by
      rcases hne with h | h
      · exact Or.inl (hasKey_true_of_consumersFor_ne_nil s _ h)
      · exact Or.inr (hasKey_true_of_consumersFor_ne_nil s _ h)
    have hok := performBody_ok noFault sym ord s hact (fun c _ => rfl)
    have hp : perform noFault sym ord s =
        (enqueueList CONFIG_WILDCARD ord (consumersFor s CONFIG_WILDCARD)
          (enqueueList sym ord (consumersFor s sym) (upsertOrder s ord)), []) := by
      unfold perform
      rw [hok]
    refine ⟨?_, ?_, ?_, ?_, ?_⟩
    · rw [hp]
      show (enqueueList CONFIG_WILDCARD ord (consumersFor s CONFIG_WILDCARD)
        (enqueueList sym ord (consumersFor s sym) (upsertOrder s ord))).ordersStore ord.id =
          some ord
      rw [enqueueList_ordersStore, enqueueList_ordersStore]
      simp [upsertOrder]
    · intro i hi
      rw [hp]
      show (enqueueList CONFIG_WILDCARD ord (consumersFor s CONFIG_WILDCARD)
        (enqueueList sym ord (consumersFor s sym) (upsertOrder s ord))).ordersStore i =
          s.ordersStore i
      rw [enqueueList_ordersStore, enqueueList_ordersStore]
      simp [upsertOrder, hi]
    · intro c hc
      rw [hp]
      have hcw : c ∉ consumersFor s CONFIG_WILDCARD := fun hmem => hdisj hc hmem
      show (enqueueList CONFIG_WILDCARD ord (consumersFor s CONFIG_WILDCARD)
        (enqueueList sym ord (consumersFor s sym) (upsertOrder s ord))).queues c =
          s.queues c ++ [(sym, ord)]
      rw [enqueueList_queues _ _ _ hndW _ c, if_neg hcw,
        enqueueList_queues _ _ _ hndS _ c, if_pos hc]
      rfl
    · intro c hc
      rw [hp]
      have hcs : c ∉ consumersFor s sym := fun hmem => hdisj hmem hc
      show (enqueueList CONFIG_WILDCARD ord (consumersFor s CONFIG_WILDCARD)
        (enqueueList sym ord (consumersFor s sym) (upsertOrder s ord))).queues c =
          s.queues c ++ [(CONFIG_WILDCARD, ord)]
      rw [enqueueList_queues _ _ _ hndW _ c, if_pos hc,
        enqueueList_queues _ _ _ hndS _ c, if_neg hcs]
      rfl
    · intro c hcs hcw
      rw [hp]
      show (enqueueList CONFIG_WILDCARD ord (consumersFor s CONFIG_WILDCARD)
        (enqueueList sym ord (consumersFor s sym) (upsertOrder s ord))).queues c = s.queues c
      rw [enqueueList_queues _ _ _ hndW _ c, if_neg hcw,
        enqueueList_queues _ _ _ hndS _ c, if_neg hcs]
      rfl

/-- Fixtures for the channel claims: one symbol consumer (id 1), one
wildcard consumer (id 2), empty queues and store. -/
def cW : ChannelState :=
  { consumers := [("BTC/USD", [1]), (CONFIG_WILDCARD, [2])],
    ordersStore := fun _ => none, queues := fun _ => [] }

/-- Fixture: a channel with no consumers at all. -/
def cE : ChannelState :=
  { consumers := [], ordersStore := fun _ => none, queues := fun _ => [] }

/-- Fixture: the order update being broadcast. -/
def xoW : XOrder := { id := 5, info := "filled" }

/-- Fixture: delivery to consumer 2 raises a non-cancellation exception. -/
def faultW : FaultSpec := fun c => if c = 2 then some (PerformErr.failure "boom") else none

/-- Witness for C5: on the fixture, the broadcast upserts order 5, serves
consumer 1 under the symbol and consumer 2 under the wildcard, leaves
queue 3 empty, and on the consumerless channel does nothing. -/
theorem orders_producer_perform_upsert_fanout_witness :
    (∀ kl ∈ cW.consumers, kl.2 ≠ ([] : List Nat)) ∧ (deliverySeq cW "BTC/USD").Nodup ∧
    (perform noFault "BTC/USD" xoW cW).1.ordersStore 5 = some xoW ∧
    (perform noFault "BTC/USD" xoW cW).1.queues 1 = [("BTC/USD", xoW)] ∧
    (perform noFault "BTC/USD" xoW cW).1.queues 2 = [(CONFIG_WILDCARD, xoW)] ∧
    (perform noFault "BTC/USD" xoW cW).1.queues 3 = [] ∧
    perform noFault "ETH/USD" xoW cE = (cE, []) := by
  have h := orders_producer_perform_upsert_fanout "BTC/USD" xoW cW (by decide) (by decide)
  have hE := orders_producer_perform_upsert_fanout "ETH/USD" xoW cE (by decide) (by decide)
  obtain ⟨h1, h2, h3, h4, h5⟩ := h.2 (Or.inr (by decide))
  refine ⟨by decide, by decide, h1, ?_, ?_, ?_, hE.1 ⟨rfl, rfl⟩⟩
  · have hq := h3 1 (by decide)
    simpa [cW] using hq
  · have hq := h4 2 (by decide)
    simpa [cW] using hq
  · have hq := h5 3 (by decide) (by decide)
    simpa [cW] using hq

/-- C6: a `push`/`perform` call never propagates an exception: when no
delivery raises, nothing is logged; when the first raising delivery raises
a cancellation signal, only an informational entry is logged and the call
ends early; when it raises any other exception, the full error detail is
logged and the exception is suppressed; in every case the consumers already
reached keep the message they received. -/
theorem orders_producer_push_swallows (fault : FaultSpec) (sym : String) (ord : XOrder)
    (s : ChannelState) (hnd : (deliverySeq s sym).Nodup) :
    ((∀ c ∈ deliverySeq s sym, fault c = none) → (push fault sym ord s).2 = []) ∧
    (∀ c e, (deliverySeq s sym).find? (fun x => (fault x).isSome) = some c →
      fault c = some e →
      (hasKey s CONFIG_WILDCARD = true ∨ hasKey s sym = true) →
      ((e = PerformErr.cancelled →
          (push fault sym ord s).2 = [LogEntry.info "Update tasks cancelled."]) ∧
       (∀ m, e = PerformErr.failure m → (push fault sym ord s).2 =
          [LogEntry.err ("exception when triggering update: " ++ m), LogEntry.exc m]) ∧
       (∀ x ∈ (deliverySeq s sym).takeWhile fun y => (fault y).isNone,
          ∃ k, (push fault sym ord s).1.queues x = s.queues x ++ [(k, ord)]))) := by
  constructor
  · intro hnone
    cases hw : hasKey s CONFIG_WILDCARD <;> cases hs : hasKey s sym
    · rw [show push fault sym ord s = perform fault sym ord s from rfl,
        perform_inactive fault sym ord s hw hs]
    all_goals
      unfold push perform
      rw [performBody_ok fault sym ord s (by rw [hw, hs]; simp) hnone]
  · intro c e hfind hc hact
    obtain ⟨S, hS, _, hq⟩ := performBody_error fault sym ord s c e hact hnd hfind hc
    cases e with
    | cancelled =>
      have hp : push fault sym ord s = (S, [LogEntry.info "Update tasks cancelled."]) := by
        unfold push perform
        rw [hS]
      refine ⟨fun _ => ?_, fun m hm => PerformErr.noConfusion hm, fun x hx => ?_⟩
      · rw [hp]
      · rw [hp]
        exact hq x hx
    | failure m0 =>
      have hp : push fault sym ord s =
          (S, [LogEntry.err ("exception when triggering update: " ++ m0), LogEntry.exc m0]) := by
        unfold push perform
        rw [hS]
      refine ⟨fun he => PerformErr.noConfusion he, fun m hm => ?_, fun x hx => ?_⟩
      · cases hm
        rw [hp]
      · rw [hp]
        exact hq x hx

/-- Witness for C6: on the fixture with a failing wildcard delivery, the
call returns with the error logged and suppressed, and the symbol consumer
(served before the fault) still holds the message. -/
theorem orders_producer_push_swallows_witness :
    (deliverySeq cW "BTC/USD").Nodup ∧
    faultW 2 = some (PerformErr.failure "boom") ∧
    (deliverySeq cW "BTC/USD").find? (fun x => (faultW x).isSome) = some 2 ∧
    (push faultW "BTC/USD" xoW cW).2 =
      [LogEntry.err ("exception when triggering update: " ++ "boom"), LogEntry.exc "boom"] ∧
    ((push faultW "BTC/USD" xoW cW).1.queues 1).length = (cW.queues 1).length + 1 := by
  have h := orders_producer_push_swallows faultW "BTC/USD" xoW cW (by decide)
  have h2 := h.2 2 (PerformErr.failure "boom") (by decide) (by decide) (Or.inr (by decide))
  obtain ⟨k, hk⟩ := h2.2.2 1 (by decide)
  refine ⟨by decide, by decide, by decide, h2.2.1 "boom" rfl, ?_⟩
  rw [hk]
  simp

/-! The consumer dispatch loop: exit policy. -/

/-- One loop iteration reaches the exited state only from an already-exited
state or from a poll point that observed the stop flag. -/
theorem consumeStep_exited_cases (cs : ConsumerState) (i : Bool × Bool)
    (h : (consumeStep cs i).status = LoopStatus.exited) :
    cs.status = LoopStatus.exited ∨ i.1 = true := by
  unfold consumeStep at h
  by_cases h0 : cs.status ≠ LoopStatus.running
  · rw [if_pos h0] at h
    exact Or.inl h
  · rw [if_neg h0] at h
    by_cases h1 : i.1
    · exact Or.inr h1
    · rw [if_neg h1] at h
      cases hq : cs.queue with
      | nil =>
        rw [hq] at h
        exact absurd h (by simp)
      | cons m rest =>
        rw [hq] at h
        have hrun : cs.status = LoopStatus.running := not_not.1 h0
        simp [hrun] at h

/-- A finite run reaches the exited state only from an already-exited start
or because some iteration's poll observed the stop flag. -/
theorem consumeRun_exited_cases (inputs : List (Bool × Bool)) (cs : ConsumerState)
    (h : (consumeRun inputs cs).status = LoopStatus.exited) :
    cs.status = LoopStatus.exited ∨ ∃ p ∈ inputs, p.1 = true := by
  induction inputs generalizing cs with
  | nil => exact Or.inl h
  | cons i rest ih =>
    rcases ih (consumeStep cs i) h with hstep | ⟨p, hp, hpt⟩
    · rcases consumeStep_exited_cases cs i hstep with hcs | hit
      · exact Or.inl hcs
      · exact Or.inr ⟨i, List.mem_cons_self i rest, hit⟩
    · exact Or.inr ⟨p, List.mem_cons_of_mem i hp, hpt⟩

/-- Fixture: a pending message and a running consumer holding it. -/
def msgW : String × XOrder := ("BTC/USD", xoW)

/-- Fixture: a running consumer with one undelivered message queued. -/
def csW : ConsumerState :=
  { queue := [msgW], handled := [], log := [], status := LoopStatus.running }

/-- Counterexample to C8 as stated: when the stop flag is observed at the
poll point while an item is still queued, the loop exits with a nonempty
queue, so the loop does not exit only when the queue is observed empty. -/
theorem consume_exit_with_nonempty_queue :
    (consumeRun [(true, false)] csW).status = LoopStatus.exited ∧
    (consumeRun [(true, false)] csW).queue = [msgW] ∧
    (consumeRun [(true, false)] csW).queue ≠ [] ∧
    ¬((consumeRun [(true, false)] csW).status = LoopStatus.exited →
      (consumeRun [(true, false)] csW).queue = []) := by
  decide

/-- C8 (amended): the loop exits only when the stop flag is observed set at
a poll point (the queue may still be nonempty, so queued items can go
undelivered); a callback exception is logged, the item still consumed, and
the loop continues — no run without a stop observation can exit. -/
theorem consume_loop_exit_policy (inputs : List (Bool × Bool)) (cs : ConsumerState) :
    ((consumeRun inputs cs).status = LoopStatus.exited →
      cs.status = LoopStatus.exited ∨ ∃ p ∈ inputs, p.1 = true) ∧
    (cs.status ≠ LoopStatus.exited → (∀ p ∈ inputs, p.1 = false) →
      (consumeRun inputs cs).status ≠ LoopStatus.exited) ∧
    (∀ cb m rest, cs.status = LoopStatus.running → cs.queue = m :: rest →
      (consumeStep cs (false, cb)).status = LoopStatus.running ∧
      (consumeStep cs (false, cb)).queue = rest ∧
      (consumeStep cs (false, cb)).handled = cs.handled ++ [m] ∧
      (consumeStep cs (false, cb)).log =
        (if cb then cs.log ++ ["Exception when calling callback"] else cs.log)) := by
  refine ⟨consumeRun_exited_cases inputs cs, ?_, ?_⟩
  · intro hne hall hexit
    rcases consumeRun_exited_cases inputs cs hexit with hcs | ⟨p, hp, hpt⟩
    · exact hne hcs
    · rw [hall p hp] at hpt
      exact Bool.false_ne_true hpt
  · intro cb m rest hrun hqueue
    unfold consumeStep
    rw [if_neg (by rw [hrun]; simp), if_neg (by simp), hqueue]
    exact ⟨hrun, rfl, rfl, rfl⟩

/-- Witness for the amended C8 on the fixture: a raising callback consumes
the message, logs the exception, and leaves the loop running; and a
stop-free trace never exits. -/
theorem consume_loop_exit_policy_witness :
    csW.status = LoopStatus.running ∧ csW.queue = [msgW] ∧
    (consumeStep csW (false, true)).status = LoopStatus.running ∧
    (consumeStep csW (false, true)).queue = [] ∧
    (consumeStep csW (false, true)).handled = [msgW] ∧
    (consumeStep csW (false, true)).log = ["Exception when calling callback"] ∧
    (consumeRun [(false, true), (false, true)] csW).status ≠ LoopStatus.exited := by
  have h := consume_loop_exit_policy [(false, true), (false, true)] csW
  have hstep := h.2.2 true msgW [] rfl rfl
  have hrun := h.2.1 (by decide) (by decide)
  refine ⟨rfl, rfl, hstep.1, hstep.2.1, ?_, ?_, hrun⟩
  · have := hstep.2.2.1
    simpa [csW] using this
  · have := hstep.2.2.2
    simpa [csW] using this

end OctoBot
